import Mathlib

/-!
Verification of the NCCH container loader (`src/core/loader/ncch.cpp`).

The development shallowly embeds the loader's data model and operations:
byte buffers are `List Nat` (each entry a byte value), 32-bit machine
arithmetic is `Nat` with explicit reduction modulo `2 ^ 32`, fallible
operations return `Option`/`Except`, and the stateful loader is explicit
state passing over a `LoaderState` record.  External collaborators (file
I/O, the AES hardware key store, the CTR-mode cipher) are abstracted as
function-valued parameters collected in an `Env` record, exactly as the
specification treats them (consumed capabilities).
-/

namespace NCCH

/-- `2 ^ 32`, the modulus of `u32` arithmetic. -/
def MOD32 : Nat := 4294967296

/-- C `u32` subtraction `a - b` (wraps modulo `2 ^ 32`); both arguments are
assumed already reduced below `2 ^ 32`. -/
def sub32 (a b : Nat) : Nat := (a + MOD32 - b) % MOD32

/-- Size of ExeFS blocks in bytes (`kBlockSize` in ncch.cpp). -/
def kBlockSize : Nat := 0x200

/-- Byte access into a buffer; out-of-range reads yield 0 (the C code never
performs them on the inputs considered here). -/
def byteAt (l : List Nat) (i : Nat) : Nat := l.getD i 0

/-! ## LZSS decompressor (`LZSS_GetDecompressedSize`, `LZSS_Decompress`) -/

/-- `LZSS_GetDecompressedSize`: reads the little-endian `u32` stored in the
last 4 bytes of the compressed buffer (`*(u32*)(buffer + size - 4)`) and
adds `size` to it in `u32` arithmetic. -/
def lzssGetDecompressedSize (compressed : List Nat) (size : Nat) : Nat :=
  let offset_size := byteAt compressed (size - 4) + byteAt compressed (size - 3) * 256 +
    byteAt compressed (size - 2) * 65536 + byteAt compressed (size - 1) * 16777216
  (offset_size + size) % MOD32

/-- The 32-bit little-endian value denoted by the first four entries of a
byte list (the specification's reading of the trailing length field). -/
def le32 (l : List Nat) : Nat :=
  byteAt l 0 + byteAt l 1 * 256 + byteAt l 2 * 65536 + byteAt l 3 * 16777216

/-- The `buffer_top_and_bottom` footer word of `LZSS_Decompress`: the
little-endian `u32` at `compressed + compressed_size - 8`. -/
def lzssFooterWord (compressed : List Nat) (compressedSize : Nat) : Nat :=
  byteAt compressed (compressedSize - 8) + byteAt compressed (compressedSize - 7) * 256 +
    byteAt compressed (compressedSize - 6) * 65536 +
    byteAt compressed (compressedSize - 5) * 16777216

/-- Initial read cursor of `LZSS_Decompress`:
`compressed_size - ((buffer_top_and_bottom >> 24) & 0xFF)` in `u32` arithmetic. -/
def lzssInitIndex (compressed : List Nat) (compressedSize : Nat) : Nat :=
  sub32 compressedSize ((lzssFooterWord compressed compressedSize >>> 24) &&& 0xFF)

/-- Stop index of `LZSS_Decompress`:
`compressed_size - (buffer_top_and_bottom & 0xFFFFFF)` in `u32` arithmetic. -/
def lzssStopIndex (compressed : List Nat) (compressedSize : Nat) : Nat :=
  sub32 compressedSize (lzssFooterWord compressed compressedSize &&& 0xFFFFFF)

/-- Decoded back-reference length at read cursor `index` (the code reads the
two bytes after `index -= 2`, so at positions `index - 2` and `index - 1`):
`((segment_offset >> 12) & 15) + 3`. -/
def lzssSegSize (compressed : List Nat) (index : Nat) : Nat :=
  (((byteAt compressed (index - 2) + byteAt compressed (index - 1) * 256) >>> 12) &&& 15) + 3

/-- Decoded back-reference distance at read cursor `index`:
`(segment_offset & 0x0FFF) + 2`. -/
def lzssSegOff (compressed : List Nat) (index : Nat) : Nat :=
  ((byteAt compressed (index - 2) + byteAt compressed (index - 1) * 256) &&& 0x0FFF) + 2

/-- Inner copy loop of a back-reference: for each of the `segment_size`
bytes, fail if the read position `out + segment_offset` — computed, like
every operand here, in `u32` arithmetic, so the sum wraps modulo `2 ^ 32`
— is not below `decompressed_size`, else copy
`decompressed[out + segment_offset]` (at that wrapped index) to
`decompressed[--out]`. Returns the new write cursor and buffer. -/
def lzssCopy (decSize so : Nat) : Nat → Nat → List Nat → Option (Nat × List Nat)
  | 0, out, dec => some (out, dec)
  | j + 1, out, dec =>
    if decSize ≤ (out + so) % MOD32 then none
    else lzssCopy decSize so j (out - 1) (dec.set (out - 1) (byteAt dec ((out + so) % MOD32)))

/-- Inner 8-symbol loop of `LZSS_Decompress` (the `for (i = 0; i < 8; i++)`
body).  The first argument after `decSize` is the number of symbols left in
the current control byte.  Returns `none` on a bounds failure
(`return false` in the C code), otherwise the updated
`(index, out, decompressed)` triple. -/
def lzssInner (compressed : List Nat) (stopIndex decSize : Nat) :
    Nat → Nat → Nat → Nat → List Nat → Option (Nat × Nat × List Nat)
  | 0, _, index, out, dec => some (index, out, dec)
  | i + 1, control, index, out, dec =>
    if index ≤ stopIndex then some (index, out, dec)
    else if index = 0 then some (index, out, dec)
    else if out = 0 then some (index, out, dec)
    else if control &&& 0x80 ≠ 0 then
      if index < 2 then none
      else if out < lzssSegSize compressed index then none
      else
        match lzssCopy decSize (lzssSegOff compressed index) (lzssSegSize compressed index)
            out dec with
        | none => none
        | some (out2, dec2) =>
          lzssInner compressed stopIndex decSize i (control * 2 % 256) (index - 2) out2 dec2
    else
      if out < 1 then none
      else
        lzssInner compressed stopIndex decSize i (control * 2 % 256) (index - 1) (out - 1)
          (dec.set (out - 1) (byteAt compressed (index - 1)))

/-- Outer `while (index > stop_index)` loop of `LZSS_Decompress`, with an
explicit fuel (the read cursor strictly decreases each iteration, so fuel
`index + 1` always suffices; exhausted fuel conservatively fails). -/
def lzssOuter (compressed : List Nat) (stopIndex decSize : Nat) :
    Nat → Nat → Nat → List Nat → Option (Nat × Nat × List Nat)
  | 0, _, _, _ => none
  | fuel + 1, index, out, dec =>
    if stopIndex < index then
      match lzssInner compressed stopIndex decSize 8 (byteAt compressed (index - 1))
          (index - 1) out dec with
      | none => none
      | some (index2, out2, dec2) => lzssOuter compressed stopIndex decSize fuel index2 out2 dec2
    else some (index, out, dec)

/-- `LZSS_Decompress`, additionally exposing the final read and write
cursors (`index`, `out`), which are local variables of the C function.
The output buffer starts as the compressed bytes followed by zero fill
(`memset` to zero then `memcpy` of the compressed buffer). -/
def lzssRun (compressed : List Nat) (compressedSize decSize : Nat) :
    Option (Nat × Nat × List Nat) :=
  let dec0 := (compressed.take compressedSize ++
    List.replicate (decSize - compressedSize) 0).take decSize
  let index := lzssInitIndex compressed compressedSize
  lzssOuter compressed (lzssStopIndex compressed compressedSize) decSize (index + 1) index
    decSize dec0

/-- `LZSS_Decompress`: `none` models `return false`, `some dec` models
`return true` with output buffer `dec`. -/
def lzssDecompress (compressed : List Nat) (compressedSize decSize : Nat) : Option (List Nat) :=
  (lzssRun compressed compressedSize decSize).map (fun r => r.2.2)

/-! ## Data model

`NCCH_Header` and `ExHeader_Header` are fixed-layout structs declared in
`ncch.h`; the embedding keeps, under their source names, exactly the fields
that `ncch.cpp` reads.  Multi-byte numeric fields are `Nat` values (the
centralized endian conversion of the header model), byte-array fields are
byte lists. -/

/-- `MakeMagic('N','C','C','H')`: the partition-container tag as a
little-endian `u32`. -/
def ncchMagic : Nat := 0x4843434E

/-- `MakeMagic('N','C','S','D')`: the outer disc-container tag. -/
def ncsdMagic : Nat := 0x4453434E

/-- The fields of `NCCH_Header` that the loader reads. -/
structure NCCH_Header where
  magic : Nat
  version : Nat
  program_id : Nat
  /-- 8-byte partition identifier, as the byte array the code copies from. -/
  partition_id : List Nat
  /-- 8 crypto-flag bytes; the code reads `flags[3]` and `flags[7]`. -/
  flags : List Nat
  /-- Signature bytes; the first 16 are reused as key-seed material. -/
  signature : List Nat
  exefs_offset : Nat
  exefs_size : Nat
  romfs_offset : Nat
  romfs_size : Nat
deriving DecidableEq

/-- The fields of `ExHeader_Header` that the modeled paths read: the
embedded program identifier (`arm11_system_local_caps.program_id`) and the
code-set flag byte (`codeset_info.flags.flag`, bit 0 = compressed). -/
structure ExHeader_Header where
  program_id : Nat
  codeset_flags : Nat
deriving DecidableEq

/-- `AesContext` (ncch.h): a 16-byte key and a 16-byte initial counter. -/
structure AesContext where
  key : List Nat
  ctr : List Nat
deriving DecidableEq

/-- The four crypto contexts alive after a successful key derivation, named
after the corresponding `AppLoader_NCCH` members. -/
structure CryptoSet where
  exheader_aes : AesContext
  exefs_aes : AesContext
  exerfs_code_aes : AesContext
  romfs_aes : AesContext
deriving DecidableEq

/-- The subset of `ResultStatus` values `ncch.cpp` returns. -/
inductive ResultStatus
  | Success
  | Error
  | ErrorInvalidFormat
  | ErrorEncrypted
  | ErrorNotLoaded
  | ErrorAlreadyLoaded
  | ErrorNotUsed
  | ErrorMemoryAllocationFailed
deriving DecidableEq

deriving instance DecidableEq for Except

/-- The hardware key slots used by the loader (`HW::AES::KeySlotID`). -/
inductive KeySlot
  | NCCH
  | NCCH7x
  | NCCHSec3
  | NCCHSec4
deriving DecidableEq

/-- An interaction with the external hardware key store: setting a slot's
KeyY, querying whether a slot's normal key is available, or retrieving a
slot's normal key. -/
inductive KSEvent
  | setKeyY (s : KeySlot) (keyY : List Nat)
  | queryAvail (s : KeySlot)
  | getNormal (s : KeySlot)
deriving DecidableEq

/-- The key slot an event touches. -/
def KSEvent.touches : KSEvent → KeySlot
  | .setKeyY s _ => s
  | .queryAvail s => s
  | .getNormal s => s

/-! ## Key derivation engine (`AppLoader_NCCH::LoadExeFS`, lines 303–395) -/

/-- Big-endian 4-byte encoding of a `u32` (the `u32ToBEArray` lambda). -/
def be32 (v : Nat) : List Nat :=
  [(v >>> 24) &&& 0xFF, (v >>> 16) &&& 0xFF, (v >>> 8) &&& 0xFF, v &&& 0xFF]

/-- Overwrite `l[pos..pos+patch.length)` with `patch` (the
`std::copy(..., ctr.begin() + pos)` writes into the counter). -/
def writeBytes (l : List Nat) (pos : Nat) (patch : List Nat) : List Nat :=
  l.take pos ++ patch ++ l.drop (pos + patch.length)

/-- Version-dependent construction of the four initial counters
(lines 304–332).  In the source, `AesContext`'s counter starts zero-filled;
version 0/2 reverse-copies the 8 partition-identifier bytes into its head
and then writes the region tag at byte 8 (1 = ExHeader, 2 = ExeFS and code,
3 = RomFS); version 1 copies the identifier in natural order and overwrites
bytes 12–15 with the big-endian region file offset, then copies the ExeFS
context over the code context; any other version fails with
`ErrorEncrypted`.  Returns `(exheader, exefs, exefs_code, romfs)` counters. -/
def deriveCtrs (hdr : NCCH_Header) :
    Except ResultStatus (List Nat × List Nat × List Nat × List Nat) :=
  if hdr.version = 0 ∨ hdr.version = 2 then
    let base := (hdr.partition_id.take 8).reverse ++ List.replicate 8 0
    Except.ok (base.set 8 1, base.set 8 2, base.set 8 2, base.set 8 3)
  else if hdr.version = 1 then
    let base := hdr.partition_id.take 8 ++ List.replicate 8 0
    let ctrFs := writeBytes base 12 (be32 (hdr.exefs_offset * kBlockSize % MOD32))
    Except.ok (writeBytes base 12 (be32 0x200), ctrFs, ctrFs,
      writeBytes base 12 (be32 (hdr.romfs_offset * kBlockSize % MOD32)))
  else Except.error ResultStatus.ErrorEncrypted

/-- Key-slot selection for one of the alternate code-section slots
(7x / Secure3 / Secure4): set the slot's KeyY, fail with `ErrorEncrypted`
if its normal key is unavailable, else retrieve it (cases 1 / 0x0A / 0x0B
of the `switch` on `flags[3]`). -/
def altSlotKey (slot : KeySlot) (keyY : List Nat) (baseKey : List Nat)
    (avail : KeySlot → Bool) (normalKey : KeySlot → List Nat → List Nat)
    (ev : List KSEvent) : Except ResultStatus (List Nat × List Nat) × List KSEvent :=
  let ev2 := ev ++ [KSEvent.setKeyY slot keyY, KSEvent.queryAvail slot]
  if avail slot = false then (Except.error ResultStatus.ErrorEncrypted, ev2)
  else (Except.ok (baseKey, normalKey slot keyY), ev2 ++ [KSEvent.getNormal slot])

/-- Key-material selection (lines 334–395).  Returns the pair
`(K1, K2)` with `exheader_aes.key = exefs_aes.key = K1` and
`exerfs_code_aes.key = romfs_aes.key = K2`, together with the sequence of
key-store interactions performed.  The fixed-key flag (`flags[7] & 1`)
short-circuits to all-zero keys; otherwise the seed-crypto flag
(`flags[7] & 0x20`) fails; otherwise the base slot `NCCH` is loaded with
the signature's first 16 bytes and queried, and the crypto-method byte
`flags[3]` selects the slot for `K2` (0 = base, 1 = 7x, 0x0A = Secure3,
0x0B = Secure4, anything else fails). -/
def deriveKeyPair (hdr : NCCH_Header) (avail : KeySlot → Bool)
    (normalKey : KeySlot → List Nat → List Nat) :
    Except ResultStatus (List Nat × List Nat) × List KSEvent :=
  if hdr.flags.getD 7 0 &&& 1 ≠ 0 then
    (Except.ok (List.replicate 16 0, List.replicate 16 0), [])
  else if hdr.flags.getD 7 0 &&& 0x20 ≠ 0 then
    (Except.error ResultStatus.ErrorEncrypted, [])
  else
    let keyY := hdr.signature.take 16
    let ev0 := [KSEvent.setKeyY KeySlot.NCCH keyY, KSEvent.queryAvail KeySlot.NCCH]
    if avail KeySlot.NCCH = false then (Except.error ResultStatus.ErrorEncrypted, ev0)
    else
      let baseKey := normalKey KeySlot.NCCH keyY
      let ev1 := ev0 ++ [KSEvent.getNormal KeySlot.NCCH]
      if hdr.flags.getD 3 0 = 0 then (Except.ok (baseKey, baseKey), ev1)
      else if hdr.flags.getD 3 0 = 1 then
        altSlotKey KeySlot.NCCH7x keyY baseKey avail normalKey ev1
      else if hdr.flags.getD 3 0 = 0x0A then
        altSlotKey KeySlot.NCCHSec3 keyY baseKey avail normalKey ev1
      else if hdr.flags.getD 3 0 = 0x0B then
        altSlotKey KeySlot.NCCHSec4 keyY baseKey avail normalKey ev1
      else (Except.error ResultStatus.ErrorEncrypted, ev1)

/-- Full key derivation (lines 303–395): counters by version, then key
material by flags, assembled into the four contexts exactly as the member
assignments leave them. -/
def deriveKeys (hdr : NCCH_Header) (avail : KeySlot → Bool)
    (normalKey : KeySlot → List Nat → List Nat) :
    Except ResultStatus CryptoSet × List KSEvent :=
  match deriveCtrs hdr with
  | Except.error e => (Except.error e, [])
  | Except.ok (ctrEx, ctrFs, ctrCode, ctrRo) =>
    match deriveKeyPair hdr avail normalKey with
    | (Except.error e, ev) => (Except.error e, ev)
    | (Except.ok (k1, k2), ev) =>
      (Except.ok ⟨⟨k1, ctrEx⟩, ⟨k1, ctrFs⟩, ⟨k2, ctrCode⟩, ⟨k2, ctrRo⟩⟩, ev)

/-! ## Container loader state machine -/

/-- The `AppLoader_NCCH` members the modeled operations touch.  A fresh
loader starts with both flags false and `ncch_offset = 0`. -/
structure LoaderState where
  is_loaded : Bool
  is_exefs_loaded : Bool
  file_open : Bool
  ncch_offset : Nat
  ncch_header : NCCH_Header
  exheader_header : ExHeader_Header
  /-- Opaque stand-in for the `ExeFs_Header` bytes read into the loader. -/
  exefs_header : Nat
  exefs_aes : Option AesContext
  exerfs_code_aes : Option AesContext
  romfs_aes : Option AesContext
  is_compressed : Bool
deriving DecidableEq

/-- External collaborators of the loader: the seekable file (parsed views
at byte offsets), the hardware key store, the CTR-mode cipher, and the
downstream executable builder.  All are abstract functions, as the
specification's external-interface section prescribes. -/
structure Env where
  /-- `NCCH_Header` parse of the bytes at a byte offset of the file. -/
  headerAt : Nat → NCCH_Header
  /-- `ExHeader_Header` parse of the bytes following the partition header
  at a given `ncch_offset`. -/
  exheaderAt : Nat → ExHeader_Header
  /-- `ExeFs_Header` bytes at a byte offset of the file. -/
  exefsHeaderAt : Nat → Nat
  /-- Whether a slot's normal key is derivable (`IsNormalKeyAvailable`). -/
  avail : KeySlot → Bool
  /-- `GetNormalKey` for a slot after its KeyY has been set. -/
  normalKey : KeySlot → List Nat → List Nat
  /-- CTR-mode decryption of the extended header with a context. -/
  decryptEx : AesContext → ExHeader_Header → ExHeader_Header
  /-- CTR-mode decryption of the ExeFS header with a context. -/
  decryptExeFs : AesContext → Nat → Nat
  /-- Outcome of the `LoadExec` stage (process-image construction). -/
  loadExecResult : ResultStatus
  /-- `file.GetSize()`. -/
  fileSize : Nat
  /-- Whether reopening the file for the RomFS handle succeeds. -/
  reopenOk : Bool

/-- Tail of `LoadExeFS` (lines 408–450): record the compression flag, read
the ExeFS header at `exefs_offset + ncch_offset` (offsets scaled by the
block size), decrypt it when an ExeFS context exists, and mark the state
loaded. -/
def finishExeFS (env : Env) (s : LoaderState) : ResultStatus × LoaderState :=
  let s1 := { s with is_compressed := s.exheader_header.codeset_flags &&& 1 = 1 }
  let exefs_offset := s1.ncch_header.exefs_offset * kBlockSize % MOD32
  let blob := env.exefsHeaderAt (exefs_offset + s1.ncch_offset)
  let blob2 := match s1.exefs_aes with
    | some a => env.decryptExeFs a blob
    | none => blob
  (ResultStatus.Success, { s1 with exefs_header := blob2, is_exefs_loaded := true })

/-- Partition location (lines 278–289): the header is read at offset 0;
when it carries the outer `NCSD` tag, `ncch_offset` becomes the byte offset
0x4000 and the header is re-read there; otherwise the member offset is left
as it was.  Returns the `(ncch_offset, ncch_header)` pair. -/
def parsePartition (env : Env) (s : LoaderState) : Nat × NCCH_Header :=
  if (env.headerAt 0).magic = ncsdMagic then (0x4000, env.headerAt 0x4000)
  else (s.ncch_offset, env.headerAt 0)

/-- `LoadExeFS` after the partition has been located at `(off, hdr)`
(lines 292–451): verify the `NCCH` magic, read the extended header, run
key derivation on identifier mismatch with the post-decryption re-check,
then read the ExeFS header. -/
def loadExeFSCore (env : Env) (s : LoaderState) (off : Nat) (hdr : NCCH_Header) :
    ResultStatus × LoaderState :=
  let s1 := { s with ncch_offset := off, ncch_header := hdr }
  if hdr.magic ≠ ncchMagic then (ResultStatus.ErrorInvalidFormat, s1)
  else
    let exh := env.exheaderAt off
    let s2 := { s1 with exheader_header := exh }
    if exh.program_id ≠ hdr.program_id then
      match deriveKeys hdr env.avail env.normalKey with
      | (Except.error e, _) => (e, s2)
      | (Except.ok cs, _) =>
        let s3 := { s2 with
          exefs_aes := some cs.exefs_aes
          exerfs_code_aes := some cs.exerfs_code_aes
          romfs_aes := some cs.romfs_aes }
        let exh2 := env.decryptEx cs.exheader_aes exh
        let s4 := { s3 with exheader_header := exh2 }
        if exh2.program_id ≠ hdr.program_id then (ResultStatus.ErrorEncrypted, s4)
        else finishExeFS env s4
    else finishExeFS env s2

/-- `AppLoader_NCCH::LoadExeFS` (lines 270–451).  Returns immediately when
already loaded; otherwise locates the partition (re-seeking to byte offset
0x4000 when the outer `NCSD` tag is found) and runs `loadExeFSCore` on it.

Modeling notes, matching the source: the header read goes into the
`ncch_header` member, so the member changes even on failing paths; member
writes performed inside failing key-derivation paths (the partial
`exefs_aes` assignments before an error return) are not observed by any
later operation and are not tracked. -/
def loadExeFS (env : Env) (s : LoaderState) : ResultStatus × LoaderState :=
  if s.is_exefs_loaded then (ResultStatus.Success, s)
  else if s.file_open = false then (ResultStatus.Error, s)
  else loadExeFSCore env s (parsePartition env s).1 (parsePartition env s).2

/-- `AppLoader_NCCH::Load` (lines 470–496): fail with `ErrorAlreadyLoaded`
when already loaded; run `LoadExeFS`; set `is_loaded` (before building the
executable); run the `LoadExec` stage; on its success, register the archive
factory and parse region lockout (side effects outside `LoaderState`). -/
def load (env : Env) (s : LoaderState) : ResultStatus × LoaderState :=
  if s.is_loaded then (ResultStatus.ErrorAlreadyLoaded, s)
  else
    let r := loadExeFS env s
    if r.1 ≠ ResultStatus.Success then r
    else
      let s2 := { r.2 with is_loaded := true }
      if env.loadExecResult ≠ ResultStatus.Success then (env.loadExecResult, s2)
      else (ResultStatus.Success, s2)

/-- `AppLoader_NCCH::ReadRomFS` (lines 526–554): requires only an open
file; when the header declares a nonzero RomFS offset and size, computes
the region (skipping the fixed 0x1000-byte inner header) in `u32`
arithmetic, checks it against the file size, reopens the file, and returns
the region; otherwise `ErrorNotUsed`.  The loader state is not mutated, so
the model returns only the result and the located region. -/
def readRomFS (env : Env) (s : LoaderState) : ResultStatus × Option (Nat × Nat) :=
  if s.file_open = false then (ResultStatus.Error, none)
  else if s.ncch_header.romfs_offset ≠ 0 ∧ s.ncch_header.romfs_size ≠ 0 then
    let off := (s.ncch_offset + s.ncch_header.romfs_offset * kBlockSize + 0x1000) % MOD32
    let sz := sub32 (s.ncch_header.romfs_size * kBlockSize % MOD32) 0x1000
    if env.fileSize < (off + sz) % MOD32 then (ResultStatus.Error, none)
    else if env.reopenOk = false then (ResultStatus.Error, none)
    else (ResultStatus.Success, some (off, sz))
  else (ResultStatus.ErrorNotUsed, none)

/-! ## Concrete fixtures

Small concrete headers, key stores and environments used by the
counterexamples and witnesses below. -/

/-- A well-formed, unencrypted-looking partition header. -/
def hdrBase : NCCH_Header :=
  { magic := ncchMagic, version := 0, program_id := 5
    partition_id := [1, 2, 3, 4, 5, 6, 7, 8]
    flags := [0, 0, 0, 0, 0, 0, 0, 0]
    signature := List.replicate 16 9
    exefs_offset := 4, exefs_size := 1, romfs_offset := 6, romfs_size := 2 }

/-- `hdrBase` with the fixed-key flag (`flags[7] & 1`) set. -/
def hdrFixed : NCCH_Header := { hdrBase with flags := [0, 0, 0, 0, 0, 0, 0, 1] }

/-- `hdrBase` with both the fixed-key and the seed-crypto flag set. -/
def hdrSeedFixed : NCCH_Header := { hdrBase with flags := [0, 0, 0, 0, 0, 0, 0, 0x21] }

/-- `hdrBase` with only the seed-crypto flag (`flags[7] & 0x20`) set. -/
def hdrSeed : NCCH_Header := { hdrBase with flags := [0, 0, 0, 0, 0, 0, 0, 0x20] }

/-- `hdrBase` with an undocumented crypto-method byte `flags[3] = 0x55`. -/
def hdrUnknownMethod : NCCH_Header := { hdrBase with flags := [0, 0, 0, 0x55, 0, 0, 0, 0] }

/-- `hdrBase` as NCCH version 1 with the 7x crypto-method byte. -/
def hdrV1Alt : NCCH_Header := { hdrBase with version := 1, flags := [0, 0, 0, 1, 0, 0, 0, 0] }

/-- A key store in which every slot has a normal key. -/
def availAll : KeySlot → Bool := fun _ => true

/-- A degenerate normal-key map: every slot yields the all-zero key. -/
def nkConst : KeySlot → List Nat → List Nat := fun _ _ => List.replicate 16 0

/-- A normal-key map distinguishing the base slot from the alternates. -/
def nkDistinct : KeySlot → List Nat → List Nat := fun s _ =>
  if s = KeySlot.NCCH then List.replicate 16 0 else List.replicate 16 1

/-- The expected crypto set for `hdrFixed` (fixed-key mode, version 0). -/
def csFixed : CryptoSet :=
  { exheader_aes := ⟨List.replicate 16 0, [8, 7, 6, 5, 4, 3, 2, 1, 1, 0, 0, 0, 0, 0, 0, 0]⟩
    exefs_aes := ⟨List.replicate 16 0, [8, 7, 6, 5, 4, 3, 2, 1, 2, 0, 0, 0, 0, 0, 0, 0]⟩
    exerfs_code_aes := ⟨List.replicate 16 0, [8, 7, 6, 5, 4, 3, 2, 1, 2, 0, 0, 0, 0, 0, 0, 0]⟩
    romfs_aes := ⟨List.replicate 16 0, [8, 7, 6, 5, 4, 3, 2, 1, 3, 0, 0, 0, 0, 0, 0, 0]⟩ }

/-- A freshly constructed loader over an open file. -/
def sInit : LoaderState :=
  { is_loaded := false, is_exefs_loaded := false, file_open := true, ncch_offset := 0
    ncch_header := hdrBase, exheader_header := ⟨0, 0⟩, exefs_header := 0
    exefs_aes := none, exerfs_code_aes := none, romfs_aes := none, is_compressed := false }

/-- An environment holding a bare, unencrypted partition: the extended
header's embedded program identifier already matches. -/
def envPlain : Env :=
  { headerAt := fun _ => hdrBase
    exheaderAt := fun _ => ⟨5, 0⟩
    exefsHeaderAt := fun o => o
    avail := availAll
    normalKey := nkConst
    decryptEx := fun _ e => e
    decryptExeFs := fun _ b => b
    loadExecResult := ResultStatus.Success
    fileSize := 10000000
    reopenOk := true }

/-- `envPlain` with an encrypted-looking extended header (embedded
program identifier 7 against outer 5, fixed-key flags) whose decryption
restores the matching identifier. -/
def envEnc : Env :=
  { envPlain with
    headerAt := fun _ => hdrFixed
    exheaderAt := fun _ => ⟨7, 1⟩
    decryptEx := fun _ _ => ⟨5, 0⟩ }

/-- `envPlain` with a failing executable-construction stage. -/
def envExecFails : Env := { envPlain with loadExecResult := ResultStatus.Error }

/-- File image for the NCSD-reseek counterexample: the outer disc tag at
offset 0, a bootable partition at byte offset `0x4000 * kBlockSize` (the
claim's block-unit reading), and garbage elsewhere — in particular at byte
offset 0x4000. -/
def envNCSD : Env :=
  { envPlain with
    headerAt := fun o =>
      if o = 0x4000 * kBlockSize then hdrBase
      else if o = 0 then { hdrBase with magic := ncsdMagic }
      else { hdrBase with magic := 0 } }

/-- Compressed input for the silent-truncation counterexample: control
byte `0x10` (three literals, then a back-reference) at offset 9, footer
declaring stop index 5 and initial read cursor 10.  The back-reference's
two offset bytes step the read cursor from 6 to 4, strictly below the stop
index, after which the loop exits successfully with the write cursor at 18
of 24. -/
def lzssCex : List Nat :=
  [0, 0, 0, 0, 0, 0, 0xAA, 0xBB, 0xCC, 0x10, 13, 0, 0, 8, 6, 0, 0, 0]

/-! ## Helper lemmas -/

/-- Byte access into a dropped prefix reads the shifted position. -/
theorem byteAt_drop (l : List Nat) (n k : Nat) : byteAt (l.drop n) k = byteAt l (n + k) := by
  simp [byteAt, List.getD_eq_getElem?_getD, List.getElem?_drop]

/-- A byte list of length 8 is an explicit 8-element list. -/
theorem list_eq_of_length_eight (l : List Nat) (h : l.length = 8) :
    ∃ b0 b1 b2 b3 b4 b5 b6 b7, l = [b0, b1, b2, b3, b4, b5, b6, b7] := by
  rcases l with _ | ⟨b0, l⟩; · simp at h
  rcases l with _ | ⟨b1, l⟩; · simp at h
  rcases l with _ | ⟨b2, l⟩; · simp at h
  rcases l with _ | ⟨b3, l⟩; · simp at h
  rcases l with _ | ⟨b4, l⟩; · simp at h
  rcases l with _ | ⟨b5, l⟩; · simp at h
  rcases l with _ | ⟨b6, l⟩; · simp at h
  rcases l with _ | ⟨b7, l⟩; · simp at h
  rcases l with _ | ⟨b8, l⟩
  · exact ⟨b0, b1, b2, b3, b4, b5, b6, b7, rfl⟩
  · simp at h

/-- The back-reference copy loop fails at its first step whenever the read
position `out + segment_offset` (wrapping `u32` sum) is not below the
output size. -/
theorem lzssCopy_oob (decSize so out : Nat) (dec : List Nat) (n : Nat) (hn : n ≠ 0)
    (h : decSize ≤ (out + so) % MOD32) : lzssCopy decSize so n out dec = none := by
  cases n with
  | zero => exact absurd rfl hn
  | succ m => simp only [lzssCopy]; rw [if_pos h]

/-- Every error `deriveCtrs` produces is `ErrorEncrypted`. -/
theorem deriveCtrs_error (hdr : NCCH_Header) (e : ResultStatus)
    (h : deriveCtrs hdr = Except.error e) : e = ResultStatus.ErrorEncrypted := by
  unfold deriveCtrs at h
  split_ifs at h
  all_goals simp_all

/-- Every error `deriveKeyPair` produces is `ErrorEncrypted`. -/
theorem deriveKeyPair_error (hdr : NCCH_Header) (avail : KeySlot → Bool)
    (nk : KeySlot → List Nat → List Nat) (e : ResultStatus)
    (h : (deriveKeyPair hdr avail nk).1 = Except.error e) :
    e = ResultStatus.ErrorEncrypted := by
  unfold deriveKeyPair altSlotKey at h
  split_ifs at h <;> simp_all

/-- With the fixed-key flag clear and the seed-crypto flag set, key-material
selection fails before any key-store interaction. -/
theorem deriveKeyPair_seed (hdr : NCCH_Header) (avail : KeySlot → Bool)
    (nk : KeySlot → List Nat → List Nat)
    (hseed : hdr.flags.getD 7 0 &&& 0x20 ≠ 0) (hfixed : hdr.flags.getD 7 0 &&& 1 = 0) :
    deriveKeyPair hdr avail nk = (Except.error ResultStatus.ErrorEncrypted, []) := by
  unfold deriveKeyPair
  rw [if_neg (fun hne => hne hfixed), if_pos hseed]

/-- With the fixed-key flag clear and an undocumented crypto-method byte,
key-material selection fails with `ErrorEncrypted` and the only key-store
interactions are with the base `NCCH` slot. -/
theorem deriveKeyPair_unknown (hdr : NCCH_Header) (avail : KeySlot → Bool)
    (nk : KeySlot → List Nat → List Nat)
    (hfixed : hdr.flags.getD 7 0 &&& 1 = 0)
    (h0 : hdr.flags.getD 3 0 ≠ 0) (h1 : hdr.flags.getD 3 0 ≠ 1)
    (hA : hdr.flags.getD 3 0 ≠ 0x0A) (hB : hdr.flags.getD 3 0 ≠ 0x0B) :
    (deriveKeyPair hdr avail nk).1 = Except.error ResultStatus.ErrorEncrypted ∧
      ∀ e ∈ (deriveKeyPair hdr avail nk).2, e.touches = KeySlot.NCCH := by
  unfold deriveKeyPair
  rw [if_neg (fun hne => hne hfixed)]
  by_cases hs : hdr.flags.getD 7 0 &&& 0x20 ≠ 0
  · rw [if_pos hs]
    exact ⟨rfl, by simp⟩
  · rw [if_neg hs]
    by_cases ha : avail KeySlot.NCCH = false
    · rw [if_pos ha]
      exact ⟨rfl, by simp [List.forall_mem_cons, KSEvent.touches]⟩
    · rw [if_neg ha, if_neg h0, if_neg h1, if_neg hA, if_neg hB]
      exact ⟨rfl, by simp [List.forall_mem_cons, KSEvent.touches]⟩

/-- A successful derivation's counters are exactly the tuple `deriveCtrs`
built, distributed to the four contexts. -/
theorem deriveKeys_ok_ctrs (hdr : NCCH_Header) (avail : KeySlot → Bool)
    (nk : KeySlot → List Nat → List Nat) (cs : CryptoSet)
    (h : (deriveKeys hdr avail nk).1 = Except.ok cs) :
    ∃ t : List Nat × List Nat × List Nat × List Nat,
      deriveCtrs hdr = Except.ok t ∧ cs.exheader_aes.ctr = t.1 ∧
        cs.exefs_aes.ctr = t.2.1 ∧ cs.exerfs_code_aes.ctr = t.2.2.1 ∧
        cs.romfs_aes.ctr = t.2.2.2 := by
  unfold deriveKeys at h
  cases hc : deriveCtrs hdr with
  | error e => rw [hc] at h; simp at h
  | ok t =>
    rw [hc] at h
    obtain ⟨a, b, c, d⟩ := t
    cases hk : deriveKeyPair hdr avail nk with
    | mk ek ev =>
      rw [hk] at h
      cases ek with
      | error e => simp at h
      | ok p =>
        obtain ⟨k1, k2⟩ := p
        simp only at h
        injection h with h
        exact ⟨(a, b, c, d), rfl, by rw [← h], by rw [← h], by rw [← h], by rw [← h]⟩

/-- Every error `deriveKeys` produces is `ErrorEncrypted`. -/
theorem deriveKeys_error (hdr : NCCH_Header) (avail : KeySlot → Bool)
    (nk : KeySlot → List Nat → List Nat) (e : ResultStatus)
    (h : (deriveKeys hdr avail nk).1 = Except.error e) :
    e = ResultStatus.ErrorEncrypted := by
  unfold deriveKeys at h
  cases hc : deriveCtrs hdr with
  | error e2 =>
    rw [hc] at h
    simp only at h
    injection h with h
    exact h ▸ deriveCtrs_error hdr e2 hc
  | ok t =>
    rw [hc] at h
    obtain ⟨a, b, c, d⟩ := t
    cases hk : deriveKeyPair hdr avail nk with
    | mk ek ev =>
      rw [hk] at h
      cases ek with
      | error e2 =>
        simp only at h
        injection h with h
        refine h ▸ deriveKeyPair_error hdr avail nk e2 ?_
        rw [hk]
      | ok p => obtain ⟨k1, k2⟩ := p; simp at h

/-- `loadExeFSCore` either succeeds having set `is_exefs_loaded`, or fails. -/
theorem loadExeFSCore_cases (env : Env) (s : LoaderState) (off : Nat) (hdr : NCCH_Header) :
    ((loadExeFSCore env s off hdr).1 = ResultStatus.Success ∧
      (loadExeFSCore env s off hdr).2.is_exefs_loaded = true) ∨
    (loadExeFSCore env s off hdr).1 ≠ ResultStatus.Success := by
  simp only [loadExeFSCore, finishExeFS]
  split
  · exact Or.inr (by simp)
  · split
    · split
      · next e ev heq =>
        have he : e = ResultStatus.ErrorEncrypted :=
          deriveKeys_error _ _ _ e (by rw [heq])
        exact Or.inr (by simp [he])
      · split
        · exact Or.inr (by simp)
        · exact Or.inl ⟨rfl, rfl⟩
    · exact Or.inl ⟨rfl, rfl⟩

/-- `LoadExeFS` either succeeds having set `is_exefs_loaded`, or fails. -/
theorem loadExeFS_cases (env : Env) (s : LoaderState) :
    ((loadExeFS env s).1 = ResultStatus.Success ∧
      (loadExeFS env s).2.is_exefs_loaded = true) ∨
    (loadExeFS env s).1 ≠ ResultStatus.Success := by
  unfold loadExeFS
  split
  · next hl => exact Or.inl ⟨rfl, hl⟩
  · split
    · exact Or.inr (by simp)
    · exact loadExeFSCore_cases env s _ _

/-- `Load` either succeeds having set `is_loaded`, or fails. -/
theorem load_cases (env : Env) (s : LoaderState) :
    ((load env s).1 = ResultStatus.Success ∧ (load env s).2.is_loaded = true) ∨
    (load env s).1 ≠ ResultStatus.Success := by
  simp only [load]
  split
  · exact Or.inr (by simp)
  · split
    · next hne => exact Or.inr hne
    · split
      · next hne => exact Or.inr hne
      · exact Or.inl ⟨rfl, rfl⟩

/-- A `Load` that fails in the executable-construction stage still leaves
`is_loaded` set. -/
theorem load_execfail_loaded (env : Env) (s : LoaderState)
    (h0 : s.is_loaded = false) (hfs : (loadExeFS env s).1 = ResultStatus.Success) :
    load env s = (env.loadExecResult,
      { (loadExeFS env s).2 with is_loaded := true }) ∨
    (env.loadExecResult = ResultStatus.Success ∧
      load env s = (ResultStatus.Success, { (loadExeFS env s).2 with is_loaded := true })) := by
  simp only [load]
  rw [if_neg (by simp [h0]), if_neg (by simp [hfs])]
  by_cases he : env.loadExecResult = ResultStatus.Success
  · exact Or.inr ⟨he, by rw [if_neg (by simp [he])]⟩
  · exact Or.inl (by rw [if_pos he])

/-! ## Claim C6 — decompressed size from the trailing length field -/

/-- C6 (amended): for every compressed buffer of length `compressed_len ≥ 4`,
the decompressed length computed by `LZSS_GetDecompressedSize` equals the
32-bit little-endian value stored in the last 4 bytes of the buffer plus
`compressed_len`, **reduced modulo `2 ^ 32`** (the computation is `u32`
addition and wraps). -/
theorem decompressed_size_from_trailer (compressed : List Nat) (size : Nat)
    (_hlen : compressed.length = size) (h4 : 4 ≤ size) :
    lzssGetDecompressedSize compressed size =
      (le32 (compressed.drop (size - 4)) + size) % MOD32 := by
  have hx : size - 4 + 1 = size - 3 := by omega
  have hy : size - 4 + 2 = size - 2 := by omega
  have hz : size - 4 + 3 = size - 1 := by omega
  unfold lzssGetDecompressedSize le32
  rw [byteAt_drop, byteAt_drop, byteAt_drop, byteAt_drop, Nat.add_zero, hx, hy, hz]

theorem decompressed_size_from_trailer_witness :
    ([1, 2, 3, 4, 5, 0, 0, 0] : List Nat).length = 8 ∧ 4 ≤ 8 ∧
      lzssGetDecompressedSize [1, 2, 3, 4, 5, 0, 0, 0] 8 =
        (le32 ([1, 2, 3, 4, 5, 0, 0, 0].drop 4) + 8) % MOD32 :=
  ⟨by decide, by decide,
    decompressed_size_from_trailer [1, 2, 3, 4, 5, 0, 0, 0] 8 (by decide) (by decide)⟩

/-- C6 counterexample to the claim as stated: on the 4-byte buffer
`FF FF FF FF`, the computed decompressed length is 3, which is the `u32`
wrap of `0xFFFFFFFF + 4` and differs from the mathematical sum
`4294967299` the claim asserts. -/
theorem decompressed_size_wraps :
    lzssGetDecompressedSize [255, 255, 255, 255] 4 = 3 ∧
      le32 (([255, 255, 255, 255] : List Nat).drop 0) + 4 = 4294967299 ∧
      (3 : Nat) ≠ 4294967299 := by
  refine ⟨?_, by decide, by decide⟩
  decide

/-! ## Claim C2 — decompressor bounds failures -/

/-- C2 (amended): whenever the inner symbol loop is about to decode a
back-reference (read cursor strictly above the stop index, nonzero output
space, control bit set) and either (a) the two offset bytes would be read
from before the start of the compressed buffer (`index < 2`), or (b) the
back-reference length exceeds the remaining output space (write-cursor
underflow), or (c) the back-reference's read position
`out + segment_offset` — the `u32` sum, wrapping modulo `2 ^ 32` exactly
as the source's comparison does — is at or past the end of the output
buffer, then `LZSS_Decompress` fails rather than truncating.  (The
remaining condition of the original claim — the read cursor underflowing
past the computed *stop index* — is *not* detected; see the
counterexample.  And because the guard compares the wrapped sum, an
output size within 4097 bytes of `2 ^ 32` could let a wrapped read pass
the check; the guarantee is stated for the wrapped comparison, which is
what the code performs.) -/
theorem lzss_backref_guarded (compressed : List Nat) (stopIndex decSize i control index out : Nat)
    (dec : List Nat) (hstop : stopIndex < index) (hout : out ≠ 0)
    (hbit : control &&& 0x80 ≠ 0)
    (hbad : index < 2 ∨ out < lzssSegSize compressed index ∨
      decSize ≤ (out + lzssSegOff compressed index) % MOD32) :
    lzssInner compressed stopIndex decSize (i + 1) control index out dec = none := by
  have hidx : index ≠ 0 := by omega
  simp only [lzssInner]
  rw [if_neg (by omega), if_neg hidx, if_neg hout, if_pos hbit]
  rcases hbad with hb | hb | hb
  · rw [if_pos hb]
  · by_cases hi : index < 2
    · rw [if_pos hi]
    · rw [if_neg hi, if_pos hb]
  · by_cases hi : index < 2
    · rw [if_pos hi]
    · rw [if_neg hi]
      by_cases ho : out < lzssSegSize compressed index
      · rw [if_pos ho]
      · rw [if_neg ho,
          lzssCopy_oob decSize (lzssSegOff compressed index) out dec
            (lzssSegSize compressed index) (by simp [lzssSegSize]) hb]

theorem lzss_backref_guarded_witness :
    (0 : Nat) < 5 ∧ (10 : Nat) ≠ 0 ∧ (0x80 : Nat) &&& 0x80 ≠ 0 ∧
      (10 : Nat) ≤ (10 + lzssSegOff [] 5) % MOD32 ∧
      lzssInner [] 0 10 8 0x80 5 10 [] = none :=
  ⟨by decide, by decide, by decide, by decide,
    lzss_backref_guarded [] 0 10 7 0x80 5 10 [] (by decide) (by decide) (by decide)
      (Or.inr (Or.inr (by decide)))⟩

/-- C2 counterexample to the claim as stated: on `lzssCex` (18 bytes,
declared output 24), the back-reference at read cursor 6 steps the cursor
to 4, strictly below the computed stop index 5 — the claimed
underflow-past-stop-index condition — yet `LZSS_Decompress` reports
success, with the final write cursor at 18, i.e. output positions 0–17
were never produced by decompression (they hold the verbatim-copied
input): success with a partially-written output. -/
theorem lzss_silent_stop_crossing :
    lzssStopIndex lzssCex 18 = 5 ∧
      (lzssRun lzssCex 18 24).map (fun r => (r.1, r.2.1)) = some (4, 18) ∧
      lzssDecompress lzssCex 18 24 =
        some (lzssCex ++ [0xAA, 0xBB, 0xCC, 0xAA, 0xBB, 0xCC]) ∧
      (4 : Nat) < 5 ∧ (18 : Nat) ≠ 0 := by
  refine ⟨by decide, ?_, ?_, by decide, by decide⟩
  · decide
  · decide

/-! ## Claim C3 — seed crypto rejection -/

/-- C3 (amended): for every partition header with the seed-crypto flag
(`flags[7] & 0x20`) set **and the fixed-key flag (`flags[7] & 1`) clear**,
key derivation fails with the unsupported-crypto error (`ErrorEncrypted`),
whatever the version and the key store contents.  (When the fixed-key flag
is also set, the fixed-key branch short-circuits and the seed-crypto flag
is never examined; see the counterexample.) -/
theorem seed_crypto_rejected_without_fixed_key (hdr : NCCH_Header) (avail : KeySlot → Bool)
    (nk : KeySlot → List Nat → List Nat)
    (hseed : hdr.flags.getD 7 0 &&& 0x20 ≠ 0) (hfixed : hdr.flags.getD 7 0 &&& 1 = 0) :
    (deriveKeys hdr avail nk).1 = Except.error ResultStatus.ErrorEncrypted := by
  unfold deriveKeys
  cases hc : deriveCtrs hdr with
  | error e => simp only; rw [deriveCtrs_error hdr e hc]
  | ok t =>
    obtain ⟨a, b, c, d⟩ := t
    rw [deriveKeyPair_seed hdr avail nk hseed hfixed]

theorem seed_crypto_rejected_without_fixed_key_witness :
    hdrSeed.flags.getD 7 0 &&& 0x20 ≠ 0 ∧
      (deriveKeys hdrSeed availAll nkConst).1 = Except.error ResultStatus.ErrorEncrypted :=
  ⟨by decide,
    seed_crypto_rejected_without_fixed_key hdrSeed availAll nkConst (by decide) (by decide)⟩

/-- C3 counterexample to the claim as stated: `hdrSeedFixed` has the
seed-crypto flag set, yet — because the fixed-key flag is also set — key
derivation succeeds instead of failing, contradicting "regardless of the
fixed-key flag". -/
theorem seed_crypto_fixed_key_accepted :
    hdrSeedFixed.flags.getD 7 0 &&& 0x20 ≠ 0 ∧
      (deriveKeys hdrSeedFixed availAll nkConst).1.toOption.isSome = true := by
  exact ⟨by decide, by decide⟩

/-! ## Claim C4 — undocumented crypto-method byte -/

/-- C4 (amended): for every partition header with the fixed-key flag clear
and a crypto-method byte `flags[3]` outside the four documented codes
(0, 1, 0x0A, 0x0B), key derivation fails with the unsupported-crypto error
and every key-store interaction it performed touches only the base `NCCH`
slot — no alternate (7x / Secure3 / Secure4) slot is set or queried.  (The
base slot *is* set and queried on the way to the method-byte switch, so the
original "no key-slot is set or queried" is refuted by the
counterexample; with the fixed-key flag set the method byte is never
examined and derivation succeeds.) -/
theorem unknown_method_rejected_base_slot_only (hdr : NCCH_Header) (avail : KeySlot → Bool)
    (nk : KeySlot → List Nat → List Nat)
    (hfixed : hdr.flags.getD 7 0 &&& 1 = 0)
    (h0 : hdr.flags.getD 3 0 ≠ 0) (h1 : hdr.flags.getD 3 0 ≠ 1)
    (hA : hdr.flags.getD 3 0 ≠ 0x0A) (hB : hdr.flags.getD 3 0 ≠ 0x0B) :
    (deriveKeys hdr avail nk).1 = Except.error ResultStatus.ErrorEncrypted ∧
      ∀ e ∈ (deriveKeys hdr avail nk).2, e.touches = KeySlot.NCCH := by
  unfold deriveKeys
  cases hc : deriveCtrs hdr with
  | error e =>
    refine ⟨?_, by simp⟩
    simp only
    rw [deriveCtrs_error hdr e hc]
  | ok t =>
    obtain ⟨a, b, c, d⟩ := t
    have h' := deriveKeyPair_unknown hdr avail nk hfixed h0 h1 hA hB
    rcases hk : deriveKeyPair hdr avail nk with ⟨ek, ev⟩
    rw [hk] at h'
    obtain ⟨hp1, hp2⟩ := h'
    cases ek with
    | error e2 =>
      refine ⟨?_, ?_⟩
      · simpa using hp1
      · simpa using hp2
    | ok p => simp at hp1

theorem unknown_method_rejected_base_slot_only_witness :
    (deriveKeys hdrUnknownMethod availAll nkConst).1 =
        Except.error ResultStatus.ErrorEncrypted ∧
      ∀ e ∈ (deriveKeys hdrUnknownMethod availAll nkConst).2, e.touches = KeySlot.NCCH :=
  unknown_method_rejected_base_slot_only hdrUnknownMethod availAll nkConst (by decide)
    (by decide) (by decide) (by decide) (by decide)

/-- C4 counterexample to the claim as stated: with the undocumented method
byte 0x55 derivation does fail, but the key store has already been touched:
the base `NCCH` slot was set (`SetKeyY`), queried
(`IsNormalKeyAvailable`) and read (`GetNormalKey`) before the method byte
was examined, contradicting "no key-slot is set or queried". -/
theorem unknown_method_touches_key_store :
    (deriveKeys hdrUnknownMethod availAll nkConst).1 =
        Except.error ResultStatus.ErrorEncrypted ∧
      (deriveKeys hdrUnknownMethod availAll nkConst).2 =
        [KSEvent.setKeyY KeySlot.NCCH (List.replicate 16 9),
          KSEvent.queryAvail KeySlot.NCCH, KSEvent.getNormal KeySlot.NCCH] ∧
      (deriveKeys hdrUnknownMethod availAll nkConst).2 ≠ [] := by
  exact ⟨by decide, by decide, by decide⟩

/-! ## Claim C1 — version-dependent initial counters -/

/-- C1 (amended): for a partition header with an 8-byte partition
identifier, whenever key derivation succeeds:
* version 0 or 2: the extended-header counter is the identifier
  byte-reversed, zero padding, and region tag 1 at byte 8; the internal-fs
  and embedded-archive counters are the same counter with the tag replaced
  by 2 resp. 3 (so the three differ only in the tag byte), and the
  code-section counter equals the internal-fs counter;
* version 1: the counter is the identifier in natural byte order with
  bytes 8–11 zero and the big-endian 4-byte file offset of the region in
  bytes 12–15 (extended header at the constant 0x200; internal-fs and
  embedded-archive offsets from the header scaled by the block size), and
  the code-section **counter** is forced equal to the internal-fs counter
  (the code-section *key* may still differ — see the counterexample);
* any other version: derivation fails with the unsupported-crypto error. -/
theorem deriveKeys_counter_layout (hdr : NCCH_Header) (avail : KeySlot → Bool)
    (nk : KeySlot → List Nat → List Nat) (hpid : hdr.partition_id.length = 8) :
    ((hdr.version = 0 ∨ hdr.version = 2) →
      ∀ cs, (deriveKeys hdr avail nk).1 = Except.ok cs →
        cs.exheader_aes.ctr.length = 16 ∧
        cs.exheader_aes.ctr.take 8 = hdr.partition_id.reverse ∧
        cs.exheader_aes.ctr.getD 8 0 = 1 ∧
        cs.exheader_aes.ctr.drop 9 = List.replicate 7 0 ∧
        cs.exefs_aes.ctr = cs.exheader_aes.ctr.set 8 2 ∧
        cs.exerfs_code_aes.ctr = cs.exefs_aes.ctr ∧
        cs.romfs_aes.ctr = cs.exheader_aes.ctr.set 8 3) ∧
    (hdr.version = 1 →
      ∀ cs, (deriveKeys hdr avail nk).1 = Except.ok cs →
        cs.exheader_aes.ctr.length = 16 ∧
        cs.exheader_aes.ctr.take 8 = hdr.partition_id ∧
        (cs.exheader_aes.ctr.drop 8).take 4 = List.replicate 4 0 ∧
        cs.exheader_aes.ctr.drop 12 = be32 0x200 ∧
        cs.exefs_aes.ctr.take 12 = cs.exheader_aes.ctr.take 12 ∧
        cs.exefs_aes.ctr.drop 12 = be32 (hdr.exefs_offset * kBlockSize % MOD32) ∧
        cs.romfs_aes.ctr.take 12 = cs.exheader_aes.ctr.take 12 ∧
        cs.romfs_aes.ctr.drop 12 = be32 (hdr.romfs_offset * kBlockSize % MOD32) ∧
        cs.exerfs_code_aes.ctr = cs.exefs_aes.ctr) ∧
    (hdr.version ≠ 0 → hdr.version ≠ 1 → hdr.version ≠ 2 →
      (deriveKeys hdr avail nk).1 = Except.error ResultStatus.ErrorEncrypted) := by
  obtain ⟨b0, b1, b2, b3, b4, b5, b6, b7, hb⟩ := list_eq_of_length_eight hdr.partition_id hpid
  refine ⟨?_, ?_, ?_⟩
  · intro hv cs hcs
    obtain ⟨⟨a, b, c, d⟩, hct, he, hf, hcc, hr⟩ := deriveKeys_ok_ctrs hdr avail nk cs hcs
    have hct2 : deriveCtrs hdr =
        Except.ok (((hdr.partition_id.take 8).reverse ++ List.replicate 8 0).set 8 1,
          ((hdr.partition_id.take 8).reverse ++ List.replicate 8 0).set 8 2,
          ((hdr.partition_id.take 8).reverse ++ List.replicate 8 0).set 8 2,
          ((hdr.partition_id.take 8).reverse ++ List.replicate 8 0).set 8 3) := by
      rcases hv with hv | hv <;> simp [deriveCtrs, hv]
    rw [hct] at hct2
    simp only [Except.ok.injEq, Prod.mk.injEq] at hct2
    obtain ⟨h1, h2, h3, h4⟩ := hct2
    subst h1; subst h2; subst h3; subst h4
    rw [hb] at he hf hcc hr
    rw [he, hf, hcc, hr, hb]
    exact ⟨rfl, rfl, rfl, rfl, rfl, rfl, rfl⟩
  · intro hv cs hcs
    obtain ⟨⟨a, b, c, d⟩, hct, he, hf, hcc, hr⟩ := deriveKeys_ok_ctrs hdr avail nk cs hcs
    have hct2 : deriveCtrs hdr =
        Except.ok (writeBytes (hdr.partition_id.take 8 ++ List.replicate 8 0) 12 (be32 0x200),
          writeBytes (hdr.partition_id.take 8 ++ List.replicate 8 0) 12
            (be32 (hdr.exefs_offset * kBlockSize % MOD32)),
          writeBytes (hdr.partition_id.take 8 ++ List.replicate 8 0) 12
            (be32 (hdr.exefs_offset * kBlockSize % MOD32)),
          writeBytes (hdr.partition_id.take 8 ++ List.replicate 8 0) 12
            (be32 (hdr.romfs_offset * kBlockSize % MOD32))) := by
      simp [deriveCtrs, hv]
    rw [hct] at hct2
    simp only [Except.ok.injEq, Prod.mk.injEq] at hct2
    obtain ⟨h1, h2, h3, h4⟩ := hct2
    subst h1; subst h2; subst h3; subst h4
    rw [hb] at he hf hcc hr
    rw [he, hf, hcc, hr, hb]
    refine ⟨rfl, rfl, rfl, rfl, rfl, rfl, rfl, rfl, rfl⟩
  · intro h0 h1 h2
    unfold deriveKeys
    have hc : deriveCtrs hdr = Except.error ResultStatus.ErrorEncrypted := by
      unfold deriveCtrs
      rw [if_neg (by rintro (hv | hv) <;> omega), if_neg (by omega)]
    rw [hc]

theorem deriveKeys_counter_layout_witness :
    (hdrFixed.version = 0 ∨ hdrFixed.version = 2) ∧
      (deriveKeys hdrFixed availAll nkConst).1 = Except.ok csFixed ∧
      csFixed.exheader_aes.ctr.getD 8 0 = 1 ∧
      csFixed.exefs_aes.ctr = csFixed.exheader_aes.ctr.set 8 2 ∧
      csFixed.romfs_aes.ctr = csFixed.exheader_aes.ctr.set 8 3 := by
  have h := (deriveKeys_counter_layout hdrFixed availAll nkConst (by decide)).1
    (Or.inl (by decide)) csFixed (by decide)
  exact ⟨Or.inl (by decide), by decide, h.2.2.1, h.2.2.2.2.1, h.2.2.2.2.2.2⟩

/-- C1 counterexample to the claim as stated: for a version-1 header with
crypto-method byte 1 (7x) and distinct base and 7x normal keys, derivation
succeeds but the code-section context is **not** equal to the internal-fs
context — their counters agree, their keys differ — because
`exerfs_code_aes = exefs_aes` is executed before the method-byte switch
assigns the code-section key. -/
theorem v1_code_key_diverges :
    hdrV1Alt.version = 1 ∧
      (deriveKeys hdrV1Alt availAll nkDistinct).1.toOption.map
          (fun cs => cs.exerfs_code_aes.key) = some (List.replicate 16 1) ∧
      (deriveKeys hdrV1Alt availAll nkDistinct).1.toOption.map
          (fun cs => cs.exefs_aes.key) = some (List.replicate 16 0) ∧
      (List.replicate 16 1 : List Nat) ≠ List.replicate 16 0 := by
  exact ⟨by decide, by decide, by decide, by decide⟩

/-! ## Loader state-machine lemmas -/

/-- A loader already holding the internal filesystem returns success
unchanged. -/
theorem loadExeFS_already (env : Env) (s : LoaderState) (h : s.is_exefs_loaded = true) :
    loadExeFS env s = (ResultStatus.Success, s) := by
  unfold loadExeFS
  rw [if_pos h]

/-- A loader already fully loaded rejects a second `Load`. -/
theorem load_already (env : Env) (s : LoaderState) (h : s.is_loaded = true) :
    load env s = (ResultStatus.ErrorAlreadyLoaded, s) := by
  unfold load
  rw [if_pos h]

/-- `loadExeFSCore` records the located partition offset and header in the
loader state on every path. -/
theorem loadExeFSCore_sets_partition (env : Env) (s : LoaderState) (off : Nat)
    (hdr : NCCH_Header) :
    (loadExeFSCore env s off hdr).2.ncch_offset = off ∧
      (loadExeFSCore env s off hdr).2.ncch_header = hdr := by
  simp only [loadExeFSCore, finishExeFS]
  split
  · exact ⟨rfl, rfl⟩
  · split
    · split
      · exact ⟨rfl, rfl⟩
      · split
        · exact ⟨rfl, rfl⟩
        · exact ⟨rfl, rfl⟩
    · exact ⟨rfl, rfl⟩

/-- On the encrypted path (valid magic, identifier mismatch, successful
derivation), `loadExeFSCore` decrypts the extended header and branches on
the re-checked identifier. -/
theorem loadExeFSCore_encrypted_result (env : Env) (s : LoaderState) (off : Nat)
    (hdr : NCCH_Header) (cs : CryptoSet) (ev : List KSEvent)
    (hmag : hdr.magic = ncchMagic)
    (hmis : (env.exheaderAt off).program_id ≠ hdr.program_id)
    (hdk : deriveKeys hdr env.avail env.normalKey = (Except.ok cs, ev)) :
    loadExeFSCore env s off hdr =
      (if (env.decryptEx cs.exheader_aes (env.exheaderAt off)).program_id ≠ hdr.program_id
       then (ResultStatus.ErrorEncrypted,
        { s with ncch_offset := off, ncch_header := hdr
                 exheader_header := env.decryptEx cs.exheader_aes (env.exheaderAt off)
                 exefs_aes := some cs.exefs_aes
                 exerfs_code_aes := some cs.exerfs_code_aes
                 romfs_aes := some cs.romfs_aes })
       else finishExeFS env
        { s with ncch_offset := off, ncch_header := hdr
                 exheader_header := env.decryptEx cs.exheader_aes (env.exheaderAt off)
                 exefs_aes := some cs.exefs_aes
                 exerfs_code_aes := some cs.exerfs_code_aes
                 romfs_aes := some cs.romfs_aes }) := by
  simp only [loadExeFSCore]
  rw [if_neg (by simp [hmag]), if_pos hmis, hdk]

/-! ## Claim C5 — post-decryption identifier check -/

/-- C5: whenever key derivation runs (the embedded program identifier
differs from the partition header's) and succeeds with crypto set `cs`,
the loader decrypts the extended header with `cs`'s extended-header
context; if the embedded identifier still differs the load fails with the
decryption error (`ErrorEncrypted`) and the internal filesystem is not
marked loaded, and only when they are now equal does the load proceed to
success. -/
theorem exheader_postdecrypt_check (env : Env) (s : LoaderState) (cs : CryptoSet)
    (hnl : s.is_exefs_loaded = false) (hop : s.file_open = true)
    (hmag : (env.headerAt 0).magic = ncchMagic)
    (hmis : (env.exheaderAt s.ncch_offset).program_id ≠ (env.headerAt 0).program_id)
    (hok : (deriveKeys (env.headerAt 0) env.avail env.normalKey).1 = Except.ok cs) :
    ((env.decryptEx cs.exheader_aes (env.exheaderAt s.ncch_offset)).program_id ≠
        (env.headerAt 0).program_id →
      (loadExeFS env s).1 = ResultStatus.ErrorEncrypted ∧
        (loadExeFS env s).2.is_exefs_loaded = false) ∧
    ((env.decryptEx cs.exheader_aes (env.exheaderAt s.ncch_offset)).program_id =
        (env.headerAt 0).program_id →
      (loadExeFS env s).1 = ResultStatus.Success ∧
        (loadExeFS env s).2.is_exefs_loaded = true) := by
  have hns : ¬(env.headerAt 0).magic = ncsdMagic := by rw [hmag]; decide
  have hpp : parsePartition env s = (s.ncch_offset, env.headerAt 0) := by
    unfold parsePartition
    rw [if_neg hns]
  have hload : loadExeFS env s = loadExeFSCore env s s.ncch_offset (env.headerAt 0) := by
    unfold loadExeFS
    rw [if_neg (by simp [hnl]), if_neg (by simp [hop]), hpp]
  rcases hdk : deriveKeys (env.headerAt 0) env.avail env.normalKey with ⟨ek, ev⟩
  rw [hdk] at hok
  simp only at hok
  subst hok
  have hcore := loadExeFSCore_encrypted_result env s s.ncch_offset (env.headerAt 0) cs ev
    hmag hmis hdk
  constructor
  · intro hne
    rw [hload, hcore, if_pos hne]
    exact ⟨rfl, hnl⟩
  · intro heq
    rw [hload, hcore, if_neg (by simp [heq])]
    exact ⟨rfl, rfl⟩

theorem exheader_postdecrypt_check_witness :
    (envEnc.exheaderAt sInit.ncch_offset).program_id ≠ (envEnc.headerAt 0).program_id ∧
      (loadExeFS envEnc sInit).1 = ResultStatus.Success ∧
      (loadExeFS envEnc sInit).2.is_exefs_loaded = true :=
  ⟨by decide,
    (exheader_postdecrypt_check envEnc sInit csFixed (by decide) (by decide) (by decide)
      (by decide) (by decide)).2 (by decide)⟩

/-! ## Claim C7 — outer disc container re-seek -/

/-- C7 (amended): when the bytes at offset 0 carry the outer `NCSD` tag,
the loader re-seeks to **byte** offset 0x4000 (0x20 blocks — not 0x4000
block units; see the counterexample), re-parses the bytes found there as
the sole bootable partition, and ignores every other part of the
container: the loaded partition offset and header come from byte offset
0x4000, and any environment whose header parses agree at offsets 0 and
0x4000 produces the identical load result. -/
theorem ncsd_reparse_at_byte_offset (env : Env) (s : LoaderState) (f : Nat → NCCH_Header)
    (hnl : s.is_exefs_loaded = false) (hop : s.file_open = true)
    (hm : (env.headerAt 0).magic = ncsdMagic)
    (hf0 : f 0 = env.headerAt 0) (hf4 : f 0x4000 = env.headerAt 0x4000) :
    (loadExeFS env s).2.ncch_offset = 0x4000 ∧
      (loadExeFS env s).2.ncch_header = env.headerAt 0x4000 ∧
      loadExeFS { env with headerAt := f } s = loadExeFS env s := by
  have hpp : parsePartition env s = (0x4000, env.headerAt 0x4000) := by
    unfold parsePartition
    rw [if_pos hm]
  have hpp2 : parsePartition { env with headerAt := f } s = (0x4000, env.headerAt 0x4000) := by
    unfold parsePartition
    simp only
    rw [hf0, if_pos hm, hf4]
  have hload : loadExeFS env s = loadExeFSCore env s 0x4000 (env.headerAt 0x4000) := by
    unfold loadExeFS
    rw [if_neg (by simp [hnl]), if_neg (by simp [hop]), hpp]
  have hload2 : loadExeFS { env with headerAt := f } s =
      loadExeFSCore { env with headerAt := f } s 0x4000 (env.headerAt 0x4000) := by
    unfold loadExeFS
    rw [if_neg (by simp [hnl]), if_neg (by simp [hop]), hpp2]
  have hcore : loadExeFSCore { env with headerAt := f } s 0x4000 (env.headerAt 0x4000) =
      loadExeFSCore env s 0x4000 (env.headerAt 0x4000) := by
    simp only [loadExeFSCore, finishExeFS]
  refine ⟨?_, ?_, by rw [hload2, hcore, hload]⟩
  · rw [hload]
    exact (loadExeFSCore_sets_partition env s 0x4000 (env.headerAt 0x4000)).1
  · rw [hload]
    exact (loadExeFSCore_sets_partition env s 0x4000 (env.headerAt 0x4000)).2

theorem ncsd_reparse_at_byte_offset_witness :
    (loadExeFS envNCSD sInit).2.ncch_offset = 0x4000 ∧
      (loadExeFS envNCSD sInit).2.ncch_header = envNCSD.headerAt 0x4000 :=
  ⟨(ncsd_reparse_at_byte_offset envNCSD sInit envNCSD.headerAt (by decide) (by decide)
      (by decide) rfl rfl).1,
    (ncsd_reparse_at_byte_offset envNCSD sInit envNCSD.headerAt (by decide) (by decide)
      (by decide) rfl rfl).2.1⟩

/-- C7 counterexample to the claim as stated: `envNCSD` holds the outer
disc tag at offset 0 and a valid bootable partition at `0x4000` **block
units** (byte offset `0x4000 * kBlockSize`), yet the loader fails with a
format error, because it re-seeks to byte offset 0x4000 — not to 0x4000
block units — and finds garbage there. -/
theorem ncsd_seek_not_block_units :
    (envNCSD.headerAt 0).magic = ncsdMagic ∧
      (envNCSD.headerAt (0x4000 * kBlockSize)).magic = ncchMagic ∧
      (loadExeFS envNCSD sInit).1 = ResultStatus.ErrorInvalidFormat ∧
      (loadExeFS envNCSD sInit).2.ncch_offset = 0x4000 ∧
      (0x4000 : Nat) ≠ 0x4000 * kBlockSize := by
  exact ⟨by decide, by decide, by decide, by decide, by decide⟩

/-! ## Claim C8 — idempotence of the two load operations -/

/-- C8: a second `LoadExeFS` after a successful one returns the same
success and leaves the state unchanged (it returns immediately on the
`is_exefs_loaded` check); a second `Load` after a successful one fails
with `ErrorAlreadyLoaded`. -/
theorem load_operations_idempotent (env : Env) (s : LoaderState) :
    ((loadExeFS env s).1 = ResultStatus.Success →
      loadExeFS env (loadExeFS env s).2 = (ResultStatus.Success, (loadExeFS env s).2)) ∧
    ((load env s).1 = ResultStatus.Success →
      (load env (load env s).2).1 = ResultStatus.ErrorAlreadyLoaded) := by
  constructor
  · intro h
    have hl : (loadExeFS env s).2.is_exefs_loaded = true := by
      rcases loadExeFS_cases env s with ⟨_, h2⟩ | hne
      · exact h2
      · exact absurd h hne
    exact loadExeFS_already env _ hl
  · intro h
    have hl : (load env s).2.is_loaded = true := by
      rcases load_cases env s with ⟨_, h2⟩ | hne
      · exact h2
      · exact absurd h hne
    rw [load_already env _ hl]

theorem load_operations_idempotent_witness :
    loadExeFS envPlain (loadExeFS envPlain sInit).2 =
        (ResultStatus.Success, (loadExeFS envPlain sInit).2) ∧
      (load envPlain (load envPlain sInit).2).1 = ResultStatus.ErrorAlreadyLoaded :=
  ⟨(load_operations_idempotent envPlain sInit).1 (by decide),
    (load_operations_idempotent envPlain sInit).2 (by decide)⟩

/-! ## Claim C9 — loading is not atomic -/

/-- C9: `Load` sets `is_loaded` before constructing the process image, so
when the executable-construction stage fails after the internal filesystem
loaded, `Load` returns that error while the loader remains marked loaded,
and every subsequent `Load` returns `ErrorAlreadyLoaded` instead of
retrying. -/
theorem load_marks_loaded_before_exec (env : Env) (s : LoaderState)
    (h0 : s.is_loaded = false)
    (hfs : (loadExeFS env s).1 = ResultStatus.Success)
    (hexec : env.loadExecResult ≠ ResultStatus.Success) :
    (load env s).1 = env.loadExecResult ∧
      (load env s).2.is_loaded = true ∧
      (load env (load env s).2).1 = ResultStatus.ErrorAlreadyLoaded := by
  have hl : load env s =
      (env.loadExecResult, { (loadExeFS env s).2 with is_loaded := true }) := by
    rcases load_execfail_loaded env s h0 hfs with h | ⟨he, _⟩
    · exact h
    · exact absurd he hexec
  refine ⟨by rw [hl], by rw [hl], ?_⟩
  rw [hl, load_already env _ rfl]

theorem load_marks_loaded_before_exec_witness :
    (load envExecFails sInit).1 = ResultStatus.Error ∧
      (load envExecFails sInit).2.is_loaded = true ∧
      (load envExecFails (load envExecFails sInit).2).1 = ResultStatus.ErrorAlreadyLoaded :=
  load_marks_loaded_before_exec envExecFails sInit (by decide) (by decide) (by decide)

/-! ## Claim C10 — the embedded-archive locator needs only an open file -/

/-- C10: `ReadRomFS` depends only on whether the file is open, the
partition offset, and the header's RomFS offset/size fields — two loader
states agreeing there (whatever their load stage) get identical results —
and it never returns the not-yet-loaded error. -/
theorem readRomFS_requires_only_open_file (env : Env) (s s2 : LoaderState)
    (h1 : s2.file_open = s.file_open) (h2 : s2.ncch_offset = s.ncch_offset)
    (h3 : s2.ncch_header.romfs_offset = s.ncch_header.romfs_offset)
    (h4 : s2.ncch_header.romfs_size = s.ncch_header.romfs_size) :
    readRomFS env s2 = readRomFS env s ∧
      (readRomFS env s).1 ≠ ResultStatus.ErrorNotLoaded := by
  constructor
  · unfold readRomFS
    rw [h1, h2, h3, h4]
  · simp only [readRomFS]
    split
    · simp
    · split
      · split
        · simp
        · split
          · simp
          · simp
      · simp

theorem readRomFS_requires_only_open_file_witness :
    readRomFS envPlain { sInit with is_exefs_loaded := true, is_loaded := true } =
        readRomFS envPlain sInit ∧
      (readRomFS envPlain sInit).1 ≠ ResultStatus.ErrorNotLoaded :=
  readRomFS_requires_only_open_file envPlain sInit
    { sInit with is_exefs_loaded := true, is_loaded := true } rfl rfl rfl rfl

end NCCH
